import Mathlib

/-!
# Verification of the EMB tamper-detection core

Shallow embedding, over exact rationals, of the algorithmic core of the
EMB_tamper_ui repository:

* `TamperDetector` / `detect_tamper` / `get_statistics`  — `tamper_detector.py`
* `generate_reading`                                     — `simulator.py`
* `read_sensor_line` / `generate_mock_data`              — `serial_reader.py`

Python floats are modelled as exact rationals; `round(x, n)` is modelled by
`roundTo n` (round-half-to-even on the scaled value, Python's rounding rule).
Randomized code is derandomized: every call of `random.uniform` /
`random.random` / `random.choice` becomes an explicit input of the embedded
function, and theorems quantify over those inputs within their documented
ranges.
-/

/- The Batteries implementation of `Rat` marks its arithmetic `@[irreducible]`,
which blocks `decide` on concrete rational facts; restore definitional
unfolding (the kernel re-checks every proof regardless). -/
set_option allowUnsafeReducibility true
attribute [semireducible] Rat.mul Rat.add Rat.sub Rat.inv Rat.div Rat.ofScientific

namespace EMB

/-- Floor of a rational as an integer (`Int.fdiv` is flooring division). -/
def floorQ (q : ℚ) : ℤ := Int.fdiv q.num q.den

/-- Round a rational to the nearest integer, ties to the even neighbour —
Python 3's `round` semantics on exact values. -/
def roundHalfEven (q : ℚ) : ℤ :=
  let f := floorQ q
  let frac := q - (f : ℚ)
  if frac < 1/2 then f
  else if 1/2 < frac then f + 1
  else if f % 2 = 0 then f else f + 1

/-- `roundTo n q` models Python's `round(q, n)` on exact rationals. -/
def roundTo (n : ℕ) (q : ℚ) : ℚ :=
  ((roundHalfEven (q * (10:ℚ)^n) : ℚ)) / (10:ℚ)^n

/-- Render a rational with exactly two decimal places; models the `:.2f`
format specifier used in the event messages (for the exact rationals the
detector handles). -/
def fmt2 (q : ℚ) : String :=
  let n := roundHalfEven (q * 100)
  let render : ℕ → String := fun m =>
    let i := m / 100
    let f := m % 100
    toString i ++ "." ++ (if f < 10 then "0" else "") ++ toString f
  if n < 0 then "-" ++ render (-n).toNat else render n.toNat

/-- Python's `sum` over a list of rationals. -/
def listSum (l : List ℚ) : ℚ := l.foldl (· + ·) 0

/-- The last `n` elements of a list, in order: Python's `l[-n:]`. -/
def lastN (l : List ℚ) (n : ℕ) : List ℚ := l.drop (l.length - n)

/-- Python's `min` over a nonempty list (junk value 0 on `[]`, where the
Python original would raise). -/
def listMin : List ℚ → ℚ
  | [] => 0
  | x :: xs => xs.foldl min x

/-- Python's `max` over a nonempty list (junk value 0 on `[]`). -/
def listMax : List ℚ → ℚ
  | [] => 0
  | x :: xs => xs.foldl max x

/-- State of `TamperDetector` (`tamper_detector.py`): the threshold instance
attributes set in `__init__` and the three rolling history lists.  The
constructor takes no parameters; the thresholds are attributes (mutable
state), which is why they are fields here rather than constants. -/
structure TamperDetector where
  voltage_normal_min : ℚ
  voltage_normal_max : ℚ
  voltage_tamper_threshold : ℚ
  current_min : ℚ
  overload_threshold : ℚ
  reverse_threshold : ℚ
  magnetic_normal_max : ℚ
  magnetic_tamper_threshold : ℚ
  voltage_history : List ℚ
  current_history : List ℚ
  power_history : List ℚ
  deriving Repr, DecidableEq

/-- `TamperDetector.__init__(self)`: the constructor takes no arguments and
installs the hard-coded default thresholds and empty histories. -/
def TamperDetector.init : TamperDetector where
  voltage_normal_min := 4.7
  voltage_normal_max := 5.2
  voltage_tamper_threshold := 2.7
  current_min := 0.05
  overload_threshold := 2.0
  reverse_threshold := -0.1
  magnetic_normal_max := 25.0
  magnetic_tamper_threshold := 60.0
  voltage_history := []
  current_history := []
  power_history := []

/-- The `(event_type, event_message, severity)` triple returned by
`detect_tamper`. -/
structure Classification where
  event_type : String
  event_message : String
  severity : String
  deriving Repr, DecidableEq

/-- The average of the most recent `min(10, len)` power samples used by
rule 7: `sum(self.power_history[-10:]) / min(len(self.power_history), 10)`. -/
def trend_avg (ph : List ℚ) : ℚ :=
  listSum (lastN ph 10) / ((min ph.length 10 : ℕ) : ℚ)

/-- The `if/elif` rule chain of `detect_tamper` (lines 33–81 of
`tamper_detector.py`), evaluated on the state as it is at the start of the
call.  `voltage >= 4.5` in rule 3 is a hard-coded literal in the source. -/
def rule_chain (s : TamperDetector) (voltage current magnetic_field power : ℚ) :
    Classification :=
  if magnetic_field > s.magnetic_tamper_threshold then
    ⟨"Magnetic Tamper",
      "⚠️ Magnetic Interference Detected! Field: " ++ fmt2 magnetic_field ++ " G",
      "critical"⟩
  else if current < s.reverse_threshold then
    ⟨"Reverse Flow",
      "⚠️ Reverse Power Flow Detected! Current: " ++ fmt2 current ++ " A",
      "warning"⟩
  else if voltage ≥ 4.5 ∧ current < s.current_min then
    ⟨"Bypass Detected",
      "⚠️ Possible Bypass! Voltage: " ++ fmt2 voltage ++ " V, Current: " ++
        fmt2 current ++ " A",
      "critical"⟩
  else if current > s.overload_threshold then
    ⟨"Overload Detected",
      "⚠️ High Current Draw Detected! Current: " ++ fmt2 current ++ " A",
      "warning"⟩
  else if voltage < s.voltage_tamper_threshold then
    ⟨"Voltage Tamper",
      "⚠️ Critical Voltage Drop! Voltage: " ++ fmt2 voltage ++ " V",
      "critical"⟩
  else if voltage < s.voltage_normal_min ∨ voltage > s.voltage_normal_max then
    ⟨"Voltage Anomaly",
      "⚠️ Voltage Out of Normal Range: " ++ fmt2 voltage ++ " V",
      "warning"⟩
  else if s.power_history.length > 5 then
    if trend_avg s.power_history > 0.1 then
      if |power - trend_avg s.power_history| > trend_avg s.power_history * 0.5 ∧
          power < trend_avg s.power_history * 0.3 then
        ⟨"Power Mismatch", "⚠️ Unexpected Power Drop Detected!", "warning"⟩
      else ⟨"Normal", "Normal Operation", "info"⟩
    else ⟨"Normal", "Normal Operation", "info"⟩
  else ⟨"Normal", "Normal Operation", "info"⟩

/-- The history update at the end of `detect_tamper` (lines 83–91): append the
reading's values to the three lists, then pop the oldest of each when the
voltage history exceeds 50 entries. -/
def push_histories (s : TamperDetector) (voltage current power : ℚ) :
    TamperDetector :=
  let vh := s.voltage_history ++ [voltage]
  let ch := s.current_history ++ [current]
  let ph := s.power_history ++ [power]
  if vh.length > 50 then
    { s with voltage_history := vh.tail, current_history := ch.tail,
             power_history := ph.tail }
  else
    { s with voltage_history := vh, current_history := ch,
             power_history := ph }

/-- `TamperDetector.detect_tamper`: computes the classification from the
pre-call state, then appends the reading to the rolling histories. -/
def detect_tamper (s : TamperDetector) (voltage current magnetic_field power : ℚ) :
    Classification × TamperDetector :=
  (rule_chain s voltage current magnetic_field power,
   push_histories s voltage current power)

/-- The seven-field statistics dictionary returned by `get_statistics`
(no `min_power` / `max_power` keys exist in the source). -/
structure Statistics where
  avg_voltage : ℚ
  avg_current : ℚ
  avg_power : ℚ
  min_voltage : ℚ
  max_voltage : ℚ
  min_current : ℚ
  max_current : ℚ
  deriving Repr, DecidableEq

/-- `TamperDetector.get_statistics` (lines 95–108): `None` when the voltage
history is empty, otherwise means of all three channels and min/max of
voltage and current only. -/
def get_statistics (s : TamperDetector) : Option Statistics :=
  if s.voltage_history = [] then none
  else some
    { avg_voltage := listSum s.voltage_history / s.voltage_history.length
      avg_current := listSum s.current_history / s.current_history.length
      avg_power := listSum s.power_history / s.power_history.length
      min_voltage := listMin s.voltage_history
      max_voltage := listMax s.voltage_history
      min_current := listMin s.current_history
      max_current := listMax s.current_history }

/-- One sensor sample as fed to `detect_tamper` by the monitor loop. -/
structure Reading where
  voltage : ℚ
  current : ℚ
  magnetic_field : ℚ
  power : ℚ
  deriving Repr, DecidableEq

/-- One `detect_tamper` call viewed as a state transition. -/
def stepD (s : TamperDetector) (r : Reading) : TamperDetector :=
  (detect_tamper s r.voltage r.current r.magnetic_field r.power).2

/-- The detector state after classifying a sequence of readings in order,
starting from a freshly constructed detector. -/
def runDetector (rs : List Reading) : TamperDetector :=
  rs.foldl stepD TamperDetector.init

/-! ## Stream generator (`simulator.py`) and serial reader (`serial_reader.py`) -/

/-- The five tamper scenarios `random.choice` picks between in
`generate_reading` and `_generate_mock_data`. -/
inductive TamperCase where
  | magnetic
  | bypass
  | overload
  | voltage
  | reverse
  deriving Repr, DecidableEq

/-- `simulator.generate_reading`, derandomized.  `dv`, `dc`, `dm` are the
draws of `random.uniform(-0.2, 0.2)`, `(-0.3, 0.3)`, `(-5.0, 5.0)`;
`tampered` is the outcome of `random.random() < tamper_probability`
(always `false` for probability 0, always `true` for probability 1, since
`random.random()` lies in `[0, 1)`); `case` is the `random.choice` outcome and
`sv` the scenario's own `random.uniform` draw (for `reverse` the draw from
`uniform(0.2, 1.0)` before the factor `-1.0`).  Returns
`(voltage, current, magnetic_field, tamper_type)` rounded to 2 decimals. -/
def generate_reading (dv dc dm : ℚ) (tampered : Bool) (case : TamperCase)
    (sv : ℚ) : ℚ × ℚ × ℚ × String :=
  let voltage := 5.0 + dv
  let current := 0.4 + dc
  let mag := 15.0 + dm
  let base := (voltage, current, mag, "Normal")
  let (voltage, current, mag, tamper_type) :=
    if tampered then
      match case with
      | .magnetic => (voltage, current, sv, "Magnetic Tamper")
      | .bypass => (voltage, sv, mag, "Bypass Tamper")
      | .overload => (voltage, sv, mag, "Overload Tamper")
      | .voltage => (sv, current, mag, "Voltage Tamper")
      | .reverse => (voltage, -1.0 * sv, mag, "Reverse Flow Tamper")
    else base
  let tamper_type := if voltage < 2.7 then "Voltage Tamper" else tamper_type
  (roundTo 2 voltage, roundTo 2 current, roundTo 2 mag, tamper_type)

/-- The dictionary returned by `SerialReader.read_sensor_data` /
`_generate_mock_data` (the wall-clock `timestamp` field is omitted from the
model). -/
structure SensorRecord where
  voltage : ℚ
  current : ℚ
  magnetic_field : ℚ
  power : ℚ
  tamper_type : String
  deriving Repr, DecidableEq

/-- `SerialReader._generate_mock_data`, derandomized like `generate_reading`.
The `power` field is `round(voltage * current, 3)` computed from the
*unrounded* voltage and current; the three channel outputs are rounded to
2 decimals. -/
def generate_mock_data (dv dc dm : ℚ) (tampered : Bool) (case : TamperCase)
    (sv : ℚ) : SensorRecord :=
  let voltage := 5.0 + dv
  let current := 0.4 + dc
  let magnetic_field := 15.0 + dm
  let base := (voltage, current, magnetic_field, "Normal")
  let (voltage, current, magnetic_field, tamper_type) :=
    if tampered then
      match case with
      | .magnetic => (voltage, current, sv, "Magnetic Tamper")
      | .bypass => (voltage, sv, magnetic_field, "Bypass Tamper")
      | .overload => (voltage, sv, magnetic_field, "Overload Tamper")
      | .voltage => (sv, current, magnetic_field, "Voltage Tamper")
      | .reverse => (voltage, -1.0 * sv, magnetic_field, "Reverse Flow Tamper")
    else base
  let tamper_type := if voltage < 2.7 then "Voltage Tamper" else tamper_type
  let power := roundTo 3 (voltage * current)
  { voltage := roundTo 2 voltage
    current := roundTo 2 current
    magnetic_field := roundTo 2 magnetic_field
    power := power
    tamper_type := tamper_type }

/-- Strip leading and trailing whitespace from a character list; models
Python's `str.strip()` (and Lean's `String.trim`) structurally. -/
def trimChars (cs : List Char) : List Char :=
  ((cs.dropWhile Char.isWhitespace).reverse.dropWhile Char.isWhitespace).reverse

/-- `str.strip()` on a `String`. -/
def strip (s : String) : String := String.mk (trimChars s.data)

/-- Python's `s.split(',')`: split on every comma, keeping empty pieces
(`""` splits to `[""]`). -/
def splitComma : List Char → List (List Char)
  | [] => [[]]
  | c :: rest =>
    if c = ',' then [] :: splitComma rest
    else
      match splitComma rest with
      | [] => [[c]]
      | p :: ps => (c :: p) :: ps

/-- Digit string to natural number. -/
def digitsToNat (cs : List Char) : ℕ :=
  cs.foldl (fun n c => 10 * n + (c.toNat - '0'.toNat)) 0

/-- Models Python's `float(s)` on plain decimal notation — optional
surrounding whitespace, optional sign, digits with at most one decimal point
and at least one digit — which is the only shape the sensor transport emits
(`None` where Python would raise `ValueError`).  Exotic inputs Python also
accepts (exponents, `inf`, `nan`, underscores) are outside the model. -/
def pyFloat (s : String) : Option ℚ :=
  let cs := trimChars s.data
  let (sign, cs) : ℚ × List Char :=
    match cs with
    | '+' :: rest => (1, rest)
    | '-' :: rest => (-1, rest)
    | _ => (1, cs)
  let intPart := cs.takeWhile Char.isDigit
  let rest := cs.dropWhile Char.isDigit
  match rest with
  | [] =>
    if intPart = [] then none
    else some (sign * (digitsToNat intPart : ℚ))
  | '.' :: frac =>
    if frac.all Char.isDigit ∧ ¬(intPart = [] ∧ frac = []) then
      some (sign * ((digitsToNat intPart : ℚ) +
        (digitsToNat frac : ℚ) / ((10 ^ frac.length : ℕ) : ℚ)))
    else none
  | _ => none

/-- The comma-separated fields of one stripped input line. -/
def sensorParts (raw : String) : List String :=
  (splitComma (strip raw).data).map String.mk

/-- The per-line parsing core of `SerialReader.read_sensor_data`
(lines 51–89 of `serial_reader.py`), applied to one buffered line: strip the
line, discard it when empty, split on commas, parse the first three fields as
numbers (any `float` failure is caught and yields `None`), take the stripped
4th field as tamper hint when present or `"Normal"` otherwise, derive
`power = round(voltage * current, 3)`, and override a `"Normal"` hint to
`"Voltage Tamper"` when the voltage is below 2.7. -/
def read_sensor_line (raw : String) : Option SensorRecord :=
  if strip raw = "" then none
  else
    let parts := sensorParts raw
    let build : ℚ → ℚ → ℚ → String → SensorRecord :=
      fun voltage current magnetic_field t =>
        { voltage := voltage
          current := current
          magnetic_field := magnetic_field
          power := roundTo 3 (voltage * current)
          tamper_type :=
            if voltage < 2.7 ∧ t = "Normal" then "Voltage Tamper" else t }
    match parts with
    | v :: c :: m :: t :: _ =>
      match pyFloat v, pyFloat c, pyFloat m with
      | some vq, some cq, some mq => some (build vq cq mq (strip t))
      | _, _, _ => none
    | [v, c, m] =>
      match pyFloat v, pyFloat c, pyFloat m with
      | some vq, some cq, some mq => some (build vq cq mq "Normal")
      | _, _, _ => none
    | _ => none

/-! ## Rounding lemmas -/

theorem floorQ_eq (q : ℚ) : floorQ q = ⌊q⌋ := by
  rw [Rat.floor_def]
  exact Int.fdiv_eq_ediv _ (by exact_mod_cast Nat.zero_le q.den)

theorem le_roundHalfEven {n : ℤ} {q : ℚ} (h : (n : ℚ) ≤ q) :
    n ≤ roundHalfEven q := by
  have hf : n ≤ ⌊q⌋ := Int.le_floor.2 h
  simp only [roundHalfEven, floorQ_eq]
  split_ifs <;> omega

theorem roundHalfEven_le {n : ℤ} {q : ℚ} (h : q ≤ (n : ℚ)) :
    roundHalfEven q ≤ n := by
  have hf : ⌊q⌋ ≤ n := by
    have := Int.floor_le_floor h
    simpa using this
  simp only [roundHalfEven, floorQ_eq]
  split_ifs with h1 h2 h3
  · exact hf
  · -- 1/2 < q - ⌊q⌋, so ⌊q⌋ + 1/2 < q ≤ n, hence ⌊q⌋ < n
    have hq : (⌊q⌋ : ℚ) + 1/2 < q := by linarith
    have : (⌊q⌋ : ℚ) < (n : ℚ) := by linarith
    have : ⌊q⌋ < n := by exact_mod_cast this
    omega
  · exact hf
  · have hq : (⌊q⌋ : ℚ) + 1/2 ≤ q := by linarith
    have : (⌊q⌋ : ℚ) < (n : ℚ) := by linarith
    have : ⌊q⌋ < n := by exact_mod_cast this
    omega

theorem roundHalfEven_intCast (m : ℤ) : roundHalfEven (m : ℚ) = m := by
  simp only [roundHalfEven, floorQ_eq, Int.floor_intCast]
  norm_num

/-- Rounding to `k` decimals preserves a lower bound that is itself a
multiple of `10 ^ (-k)`. -/
theorem roundTo_lb {k : ℕ} {a : ℤ} {q : ℚ} (h : (a : ℚ) / (10:ℚ)^k ≤ q) :
    (a : ℚ) / (10:ℚ)^k ≤ roundTo k q := by
  have h10 : (0:ℚ) < (10:ℚ)^k := by positivity
  have h1 : (a : ℚ) ≤ q * (10:ℚ)^k := by
    rw [div_le_iff₀ h10] at h; exact h
  have h2 : a ≤ roundHalfEven (q * (10:ℚ)^k) := le_roundHalfEven h1
  unfold roundTo
  exact (div_le_div_iff_of_pos_right h10).mpr (by exact_mod_cast h2)

/-- Rounding to `k` decimals preserves an upper bound that is itself a
multiple of `10 ^ (-k)`. -/
theorem roundTo_ub {k : ℕ} {a : ℤ} {q : ℚ} (h : q ≤ (a : ℚ) / (10:ℚ)^k) :
    roundTo k q ≤ (a : ℚ) / (10:ℚ)^k := by
  have h10 : (0:ℚ) < (10:ℚ)^k := by positivity
  have h1 : q * (10:ℚ)^k ≤ (a : ℚ) := by
    rw [le_div_iff₀ h10] at h; exact h
  have h2 : roundHalfEven (q * (10:ℚ)^k) ≤ a := roundHalfEven_le h1
  unfold roundTo
  exact (div_le_div_iff_of_pos_right h10).mpr (by exact_mod_cast h2)

/-- `roundTo k` output is a multiple of `10 ^ (-k)` and is therefore a fixed
point of `roundTo k`. -/
theorem roundTo_int_div (k : ℕ) (m : ℤ) :
    roundTo k ((m : ℚ) / (10:ℚ)^k) = (m : ℚ) / (10:ℚ)^k := by
  have h10 : ((10:ℚ)^k) ≠ 0 := by positivity
  unfold roundTo
  rw [div_mul_cancel₀ _ h10, roundHalfEven_intCast]

theorem roundTo_idem (k : ℕ) (q : ℚ) : roundTo k (roundTo k q) = roundTo k q :=
  roundTo_int_div k _

/-- A value rounded to 2 decimals is also a fixed point of 3-decimal
rounding. -/
theorem roundTo3_roundTo2 (q : ℚ) : roundTo 3 (roundTo 2 q) = roundTo 2 q := by
  have h : roundTo 2 q = ((10 * roundHalfEven (q * (10:ℚ)^2) : ℤ) : ℚ) / (10:ℚ)^3 := by
    unfold roundTo
    push_cast
    ring
  rw [h, roundTo_int_div]

/-! ## List helper lemmas -/

theorem foldl_min_mem : ∀ (l : List ℚ) (x : ℚ), l.foldl min x ∈ x :: l := by
  intro l
  induction l with
  | nil => intro x; simp
  | cons y ys ih =>
    intro x
    rw [List.foldl_cons]
    rcases List.mem_cons.1 (ih (min x y)) with h1 | h1
    · rcases min_choice x y with hm | hm
      · exact List.mem_cons.2 (Or.inl (h1.trans hm))
      · exact List.mem_cons.2 (Or.inr (List.mem_cons.2 (Or.inl (h1.trans hm))))
    · exact List.mem_cons.2 (Or.inr (List.mem_cons.2 (Or.inr h1)))

theorem foldl_min_le : ∀ (l : List ℚ) (x y : ℚ), y ∈ x :: l → l.foldl min x ≤ y := by
  intro l
  induction l with
  | nil =>
    intro x y hy
    have hx : y = x := by simpa using hy
    simp [hx]
  | cons z zs ih =>
    intro x y hy
    rw [List.foldl_cons]
    rcases List.mem_cons.1 hy with h1 | h1
    · subst h1
      exact le_trans (ih _ _ (List.mem_cons_self _ _)) (min_le_left _ _)
    · rcases List.mem_cons.1 h1 with h2 | h2
      · subst h2
        exact le_trans (ih _ _ (List.mem_cons_self _ _)) (min_le_right _ _)
      · exact ih _ y (List.mem_cons.2 (Or.inr h2))

theorem foldl_max_mem : ∀ (l : List ℚ) (x : ℚ), l.foldl max x ∈ x :: l := by
  intro l
  induction l with
  | nil => intro x; simp
  | cons y ys ih =>
    intro x
    rw [List.foldl_cons]
    rcases List.mem_cons.1 (ih (max x y)) with h1 | h1
    · rcases max_choice x y with hm | hm
      · exact List.mem_cons.2 (Or.inl (h1.trans hm))
      · exact List.mem_cons.2 (Or.inr (List.mem_cons.2 (Or.inl (h1.trans hm))))
    · exact List.mem_cons.2 (Or.inr (List.mem_cons.2 (Or.inr h1)))

theorem le_foldl_max : ∀ (l : List ℚ) (x y : ℚ), y ∈ x :: l → y ≤ l.foldl max x := by
  intro l
  induction l with
  | nil =>
    intro x y hy
    have hx : y = x := by simpa using hy
    simp [hx]
  | cons z zs ih =>
    intro x y hy
    rw [List.foldl_cons]
    rcases List.mem_cons.1 hy with h1 | h1
    · subst h1
      exact le_trans (le_max_left _ _) (ih _ _ (List.mem_cons_self _ _))
    · rcases List.mem_cons.1 h1 with h2 | h2
      · subst h2
        exact le_trans (le_max_right _ _) (ih _ _ (List.mem_cons_self _ _))
      · exact ih _ y (List.mem_cons.2 (Or.inr h2))

theorem listMin_mem {l : List ℚ} (h : l ≠ []) : listMin l ∈ l := by
  cases l with
  | nil => exact absurd rfl h
  | cons x xs => exact foldl_min_mem xs x

theorem listMin_le {l : List ℚ} (h : l ≠ []) : ∀ y ∈ l, listMin l ≤ y := by
  cases l with
  | nil => exact absurd rfl h
  | cons x xs => exact fun y hy => foldl_min_le xs x y hy

theorem listMax_mem {l : List ℚ} (h : l ≠ []) : listMax l ∈ l := by
  cases l with
  | nil => exact absurd rfl h
  | cons x xs => exact foldl_max_mem xs x

theorem le_listMax {l : List ℚ} (h : l ≠ []) : ∀ y ∈ l, y ≤ listMax l := by
  cases l with
  | nil => exact absurd rfl h
  | cons x xs => exact fun y hy => le_foldl_max xs x y hy

/-- `lastN` keeps a list of length at most `n` unchanged. -/
theorem lastN_of_le {l : List ℚ} {n : ℕ} (h : l.length ≤ n) : lastN l n = l := by
  simp [lastN, Nat.sub_eq_zero_of_le h]

theorem lastN_length (l : List ℚ) (n : ℕ) :
    (lastN l n).length = min n l.length := by
  simp [lastN]
  omega

/-- The last `n` elements of `l ++ ys` only depend on the last `n` elements
of `l`. -/
theorem lastN_append_lastN (l ys : List ℚ) (n : ℕ) :
    lastN (lastN l n ++ ys) n = lastN (l ++ ys) n := by
  by_cases hn : l.length ≤ n
  · rw [lastN_of_le hn]
  · have hn' : n ≤ l.length := le_of_lt (Nat.lt_of_not_le hn)
    unfold lastN
    rw [List.drop_append_eq_append_drop, List.drop_append_eq_append_drop,
        List.drop_drop]
    congr 1
    · congr 1
      simp only [List.length_append, List.length_drop]
      omega
    · congr 1
      simp only [List.length_append, List.length_drop]
      omega


/-! ## Rolling-history invariants -/

theorem push_histories_fields (s : TamperDetector) (v c p : ℚ)
    (h1 : s.voltage_history.length ≤ 50)
    (h2 : s.current_history.length = s.voltage_history.length)
    (h3 : s.power_history.length = s.voltage_history.length) :
    (push_histories s v c p).voltage_history = lastN (s.voltage_history ++ [v]) 50 ∧
    (push_histories s v c p).current_history = lastN (s.current_history ++ [c]) 50 ∧
    (push_histories s v c p).power_history = lastN (s.power_history ++ [p]) 50 := by
  simp only [push_histories]
  by_cases h50 : s.voltage_history.length = 50
  · rw [if_pos (by simp [h50])]
    refine ⟨?_, ?_, ?_⟩ <;>
      simp [lastN, List.length_append, h50, h2, h3, List.drop_one]
  · have hlt : s.voltage_history.length < 50 := lt_of_le_of_ne h1 h50
    rw [if_neg (by simp; omega)]
    refine ⟨?_, ?_, ?_⟩ <;>
      rw [lastN_of_le (by simp [List.length_append]; omega)]

theorem foldl_histories : ∀ (rs : List Reading) (s : TamperDetector),
    s.voltage_history.length ≤ 50 →
    s.current_history.length = s.voltage_history.length →
    s.power_history.length = s.voltage_history.length →
    (rs.foldl stepD s).voltage_history
        = lastN (s.voltage_history ++ rs.map Reading.voltage) 50 ∧
    (rs.foldl stepD s).current_history
        = lastN (s.current_history ++ rs.map Reading.current) 50 ∧
    (rs.foldl stepD s).power_history
        = lastN (s.power_history ++ rs.map Reading.power) 50 := by
  intro rs
  induction rs with
  | nil =>
    intro s h1 h2 h3
    refine ⟨?_, ?_, ?_⟩ <;> simp <;> rw [lastN_of_le (by omega)]
  | cons r rs ih =>
    intro s h1 h2 h3
    rw [List.foldl_cons]
    obtain ⟨e1, e2, e3⟩ := push_histories_fields s r.voltage r.current r.power h1 h2 h3
    have hs : stepD s r = push_histories s r.voltage r.current r.power := rfl
    have l1 : (stepD s r).voltage_history.length ≤ 50 := by
      rw [hs, e1, lastN_length]; omega
    have l2 : (stepD s r).current_history.length = (stepD s r).voltage_history.length := by
      rw [hs, e1, e2, lastN_length, lastN_length]
      simp [List.length_append, h2]
    have l3 : (stepD s r).power_history.length = (stepD s r).voltage_history.length := by
      rw [hs, e1, e3, lastN_length, lastN_length]
      simp [List.length_append, h3]
    obtain ⟨f1, f2, f3⟩ := ih (stepD s r) l1 l2 l3
    refine ⟨?_, ?_, ?_⟩
    · rw [f1, hs, e1, lastN_append_lastN, List.append_assoc]
      simp
    · rw [f2, hs, e2, lastN_append_lastN, List.append_assoc]
      simp
    · rw [f3, hs, e3, lastN_append_lastN, List.append_assoc]
      simp

/-- Specialization to a run from the fresh detector. -/
theorem runDetector_histories (rs : List Reading) :
    (runDetector rs).voltage_history = lastN (rs.map Reading.voltage) 50 ∧
    (runDetector rs).current_history = lastN (rs.map Reading.current) 50 ∧
    (runDetector rs).power_history = lastN (rs.map Reading.power) 50 := by
  have h := foldl_histories rs TamperDetector.init (by simp [TamperDetector.init])
    (by simp [TamperDetector.init]) (by simp [TamperDetector.init])
  simpa [runDetector, TamperDetector.init] using h


/-! ## Claim C1: first-match rule semantics -/

/-- A freshly constructed detector whose histories have been replaced — the
general shape of every detector state reachable in the program (nothing in
the repository mutates the thresholds between construction and
classification, apart from the UI settings dialog which rewrites only
`magnetic_tamper_threshold`). -/
def defaultWith (vh ch ph : List ℚ) : TamperDetector :=
  { TamperDetector.init with
      voltage_history := vh, current_history := ch, power_history := ph }

theorem defaultWith_vmin (vh ch ph : List ℚ) :
    (defaultWith vh ch ph).voltage_normal_min = 4.7 := rfl

theorem defaultWith_vmax (vh ch ph : List ℚ) :
    (defaultWith vh ch ph).voltage_normal_max = 5.2 := rfl

theorem defaultWith_vt (vh ch ph : List ℚ) :
    (defaultWith vh ch ph).voltage_tamper_threshold = 2.7 := rfl

theorem defaultWith_cmin (vh ch ph : List ℚ) :
    (defaultWith vh ch ph).current_min = 0.05 := rfl

theorem defaultWith_ov (vh ch ph : List ℚ) :
    (defaultWith vh ch ph).overload_threshold = 2.0 := rfl

theorem defaultWith_rev (vh ch ph : List ℚ) :
    (defaultWith vh ch ph).reverse_threshold = -0.1 := rfl

theorem defaultWith_mag (vh ch ph : List ℚ) :
    (defaultWith vh ch ph).magnetic_tamper_threshold = 60 := by
  show (60.0 : ℚ) = 60
  norm_num

theorem defaultWith_ph (vh ch ph : List ℚ) :
    (defaultWith vh ch ph).power_history = ph := rfl

/-- The rule conditions of the claim, in their fixed priority order, at the
default thresholds (rule indices 0–6; index 7 is the catch-all "Normal"). -/
def specRuleCond (ph : List ℚ) (v c m p : ℚ) : ℕ → Prop
  | 0 => m > 60
  | 1 => c < -0.1
  | 2 => v ≥ 4.5 ∧ c < 0.05
  | 3 => c > 2.0
  | 4 => v < 2.7
  | 5 => v < 4.7 ∨ v > 5.2
  | 6 => ph.length > 5 ∧ trend_avg ph > 0.1 ∧
         |p - trend_avg ph| > trend_avg ph * 0.5 ∧ p < trend_avg ph * 0.3
  | _ => True

/-- The category and severity each rule produces. -/
def specRuleOut : ℕ → String × String
  | 0 => ("Magnetic Tamper", "critical")
  | 1 => ("Reverse Flow", "warning")
  | 2 => ("Bypass Detected", "critical")
  | 3 => ("Overload Detected", "warning")
  | 4 => ("Voltage Tamper", "critical")
  | 5 => ("Voltage Anomaly", "warning")
  | 6 => ("Power Mismatch", "warning")
  | _ => ("Normal", "info")


/-- C1.  For every reading and every (default-threshold) classifier state,
`detect_tamper` produces exactly one category: the one attached to the first
satisfied rule in the fixed priority order — magnetic, reverse, bypass,
overload, voltage tamper, voltage anomaly, trend, normal — with no later
rule evaluated once one matches; in particular a reading with voltage 5.0,
current 3.0 and magnetic field 10 is classified "Overload Detected", not
"Voltage Anomaly". -/
theorem C1_first_match_rule_priority :
    (∀ (vh ch ph : List ℚ) (v c m p : ℚ),
      ∃ i, i ≤ 7 ∧ specRuleCond ph v c m p i ∧
        (∀ j, j < i → ¬ specRuleCond ph v c m p j) ∧
        ((detect_tamper (defaultWith vh ch ph) v c m p).1.event_type,
         (detect_tamper (defaultWith vh ch ph) v c m p).1.severity) = specRuleOut i) ∧
    (detect_tamper TamperDetector.init 5.0 3.0 10 15).1.event_type
      = "Overload Detected" := by
  constructor
  · intro vh ch ph v c m p
    have hd : (detect_tamper (defaultWith vh ch ph) v c m p).1
        = rule_chain (defaultWith vh ch ph) v c m p := rfl
    by_cases h0 : m > (60:ℚ)
    · refine ⟨0, by omega, h0, fun j hj => absurd hj (Nat.not_lt_zero j), ?_⟩
      rw [hd]
      simp only [rule_chain, defaultWith_mag]
      rw [if_pos h0]
      rfl
    by_cases h1 : c < (-0.1:ℚ)
    · refine ⟨1, by omega, h1, ?_, ?_⟩
      · intro j hj; interval_cases j; assumption
      rw [hd]
      simp only [rule_chain, defaultWith_mag, defaultWith_rev]
      rw [if_neg h0, if_pos h1]
      rfl
    by_cases h2 : v ≥ (4.5:ℚ) ∧ c < (0.05:ℚ)
    · refine ⟨2, by omega, h2, ?_, ?_⟩
      · intro j hj; interval_cases j <;> assumption
      rw [hd]
      simp only [rule_chain, defaultWith_mag, defaultWith_rev, defaultWith_cmin]
      rw [if_neg h0, if_neg h1, if_pos h2]
      rfl
    by_cases h3 : c > (2.0:ℚ)
    · refine ⟨3, by omega, h3, ?_, ?_⟩
      · intro j hj; interval_cases j <;> assumption
      rw [hd]
      simp only [rule_chain, defaultWith_mag, defaultWith_rev, defaultWith_cmin,
        defaultWith_ov]
      rw [if_neg h0, if_neg h1, if_neg h2, if_pos h3]
      rfl
    by_cases h4 : v < (2.7:ℚ)
    · refine ⟨4, by omega, h4, ?_, ?_⟩
      · intro j hj; interval_cases j <;> assumption
      rw [hd]
      simp only [rule_chain, defaultWith_mag, defaultWith_rev, defaultWith_cmin,
        defaultWith_ov, defaultWith_vt]
      rw [if_neg h0, if_neg h1, if_neg h2, if_neg h3, if_pos h4]
      rfl
    by_cases h5 : v < (4.7:ℚ) ∨ v > (5.2:ℚ)
    · refine ⟨5, by omega, h5, ?_, ?_⟩
      · intro j hj; interval_cases j <;> assumption
      rw [hd]
      simp only [rule_chain, defaultWith_mag, defaultWith_rev, defaultWith_cmin,
        defaultWith_ov, defaultWith_vt, defaultWith_vmin, defaultWith_vmax]
      rw [if_neg h0, if_neg h1, if_neg h2, if_neg h3, if_neg h4, if_pos h5]
      rfl
    by_cases h6 : ph.length > 5 ∧ trend_avg ph > (0.1:ℚ) ∧
        |p - trend_avg ph| > trend_avg ph * 0.5 ∧ p < trend_avg ph * 0.3
    · refine ⟨6, by omega, h6, ?_, ?_⟩
      · intro j hj; interval_cases j <;> assumption
      rw [hd]
      simp only [rule_chain, defaultWith_mag, defaultWith_rev, defaultWith_cmin,
        defaultWith_ov, defaultWith_vt, defaultWith_vmin, defaultWith_vmax,
        defaultWith_ph]
      rw [if_neg h0, if_neg h1, if_neg h2, if_neg h3, if_neg h4, if_neg h5,
        if_pos h6.1, if_pos h6.2.1, if_pos h6.2.2]
      rfl
    · refine ⟨7, le_refl 7, trivial, ?_, ?_⟩
      · intro j hj; interval_cases j <;> assumption
      rw [hd]
      simp only [rule_chain, defaultWith_mag, defaultWith_rev, defaultWith_cmin,
        defaultWith_ov, defaultWith_vt, defaultWith_vmin, defaultWith_vmax,
        defaultWith_ph]
      rw [if_neg h0, if_neg h1, if_neg h2, if_neg h3, if_neg h4, if_neg h5]
      by_cases hA : ph.length > 5
      · by_cases hB : trend_avg ph > (0.1:ℚ)
        · have hCD : ¬(|p - trend_avg ph| > trend_avg ph * 0.5 ∧
              p < trend_avg ph * 0.3) := fun hcd => h6 ⟨hA, hB, hcd.1, hcd.2⟩
          rw [if_pos hA, if_pos hB, if_neg hCD]
          rfl
        · rw [if_pos hA, if_neg hB]
          rfl
      · rw [if_neg hA]
        rfl
  · decide


/-- Witness for C1: the worked example voltage 5, current 3, magnetic
field 10 on a fresh classifier, where rule 4 is the first satisfied rule. -/
theorem C1_first_match_rule_priority_witness :
    ∃ i, i ≤ 7 ∧ specRuleCond [] 5 3 10 15 i ∧
      (∀ j, j < i → ¬ specRuleCond [] 5 3 10 15 j) ∧
      ((detect_tamper (defaultWith [] [] []) 5 3 10 15).1.event_type,
       (detect_tamper (defaultWith [] [] []) 5 3 10 15).1.severity)
        = specRuleOut i :=
  C1_first_match_rule_priority.1 [] [] [] 5 3 10 15

/-! ## Claims C2/C3: classification of generated streams -/

theorem roundTo2_lb {a : ℤ} {q : ℚ} (h : (a : ℚ)/100 ≤ q) :
    (a : ℚ)/100 ≤ roundTo 2 q := by
  have e : ((10:ℚ)^(2:ℕ)) = (100:ℚ) := by norm_num
  have h2 := @roundTo_lb 2 a q (by rw [e]; exact h)
  rw [e] at h2
  exact h2

theorem roundTo2_ub {a : ℤ} {q : ℚ} (h : q ≤ (a : ℚ)/100) :
    roundTo 2 q ≤ (a : ℚ)/100 := by
  have e : ((10:ℚ)^(2:ℕ)) = (100:ℚ) := by norm_num
  have h2 := @roundTo_ub 2 a q (by rw [e]; exact h)
  rw [e] at h2
  exact h2


/-- C2 (amended).  On a reading produced by the stream generator with
`tamperProbability = 0` (so, before rounding, voltage lies in `[4.8, 5.2]`,
current in `[0.1, 0.7]` and the magnetic field in `[10, 20]`), the hint is
"Normal" and a default-threshold classifier never fires any of the six
threshold rules: the classification is either "Normal" or — contrary to the
original claim, see the counterexample — trend-based "Power Mismatch". -/
theorem C2_normal_stream_classification :
    ∀ (dv dc dm sv : ℚ) (case : TamperCase) (vh ch ph : List ℚ) (p : ℚ),
      -0.2 ≤ dv → dv ≤ 0.2 → -0.3 ≤ dc → dc ≤ 0.3 → -5 ≤ dm → dm ≤ 5 →
      (generate_reading dv dc dm false case sv).2.2.2 = "Normal" ∧
      ((detect_tamper (defaultWith vh ch ph)
          (generate_reading dv dc dm false case sv).1
          (generate_reading dv dc dm false case sv).2.1
          (generate_reading dv dc dm false case sv).2.2.1 p).1.event_type = "Normal" ∨
       (detect_tamper (defaultWith vh ch ph)
          (generate_reading dv dc dm false case sv).1
          (generate_reading dv dc dm false case sv).2.1
          (generate_reading dv dc dm false case sv).2.2.1 p).1.event_type
            = "Power Mismatch") := by
  intro dv dc dm sv case vh ch ph p hdv1 hdv2 hdc1 hdc2 hdm1 hdm2
  have hg : generate_reading dv dc dm false case sv =
      (roundTo 2 (5.0 + dv), roundTo 2 (0.4 + dc), roundTo 2 (15.0 + dm),
       if 5.0 + dv < 2.7 then "Voltage Tamper" else "Normal") := rfl
  have hv1 : (4.8:ℚ) ≤ roundTo 2 (5.0 + dv) := by
    have e : ((480:ℤ):ℚ)/100 = (4.8:ℚ) := by norm_num
    have h := @roundTo2_lb 480 (5.0 + dv) (by rw [e]; linarith)
    rw [e] at h
    exact h
  have hv2 : roundTo 2 (5.0 + dv) ≤ (5.2:ℚ) := by
    have e : ((520:ℤ):ℚ)/100 = (5.2:ℚ) := by norm_num
    have h := @roundTo2_ub 520 (5.0 + dv) (by rw [e]; linarith)
    rw [e] at h
    exact h
  have hc1 : (0.1:ℚ) ≤ roundTo 2 (0.4 + dc) := by
    have e : ((10:ℤ):ℚ)/100 = (0.1:ℚ) := by norm_num
    have h := @roundTo2_lb 10 (0.4 + dc) (by rw [e]; linarith)
    rw [e] at h
    exact h
  have hc2 : roundTo 2 (0.4 + dc) ≤ (0.7:ℚ) := by
    have e : ((70:ℤ):ℚ)/100 = (0.7:ℚ) := by norm_num
    have h := @roundTo2_ub 70 (0.4 + dc) (by rw [e]; linarith)
    rw [e] at h
    exact h
  have hm2 : roundTo 2 (15.0 + dm) ≤ (20:ℚ) := by
    have e : ((2000:ℤ):ℚ)/100 = (20:ℚ) := by norm_num
    have h := @roundTo2_ub 2000 (15.0 + dm) (by rw [e]; linarith)
    rw [e] at h
    exact h
  constructor
  · rw [hg]
    show (if 5.0 + dv < 2.7 then "Voltage Tamper" else "Normal") = "Normal"
    rw [if_neg (by linarith)]
  · rw [hg]
    have hd : (detect_tamper (defaultWith vh ch ph) (roundTo 2 (5.0 + dv))
        (roundTo 2 (0.4 + dc)) (roundTo 2 (15.0 + dm)) p).1
        = rule_chain (defaultWith vh ch ph) (roundTo 2 (5.0 + dv))
            (roundTo 2 (0.4 + dc)) (roundTo 2 (15.0 + dm)) p := rfl
    show (rule_chain (defaultWith vh ch ph) (roundTo 2 (5.0 + dv))
        (roundTo 2 (0.4 + dc)) (roundTo 2 (15.0 + dm)) p).event_type = "Normal" ∨
      (rule_chain (defaultWith vh ch ph) (roundTo 2 (5.0 + dv))
        (roundTo 2 (0.4 + dc)) (roundTo 2 (15.0 + dm)) p).event_type = "Power Mismatch"
    simp only [rule_chain, defaultWith_mag, defaultWith_rev, defaultWith_cmin,
      defaultWith_ov, defaultWith_vt, defaultWith_vmin, defaultWith_vmax,
      defaultWith_ph]
    rw [if_neg (by linarith), if_neg (by linarith),
      if_neg (fun h => absurd h.2 (by linarith)), if_neg (by linarith),
      if_neg (by linarith), if_neg (by push_neg; constructor <;> linarith)]
    split_ifs
    · exact Or.inr rfl
    · exact Or.inl rfl
    · exact Or.inl rfl
    · exact Or.inl rfl


/-- Witness for C2: concrete in-range draws, fresh classifier. -/
theorem C2_normal_stream_classification_witness :
    (generate_reading 0 0 0 false TamperCase.magnetic 0).2.2.2 = "Normal" ∧
    ((detect_tamper (defaultWith [] [] [])
        (generate_reading 0 0 0 false TamperCase.magnetic 0).1
        (generate_reading 0 0 0 false TamperCase.magnetic 0).2.1
        (generate_reading 0 0 0 false TamperCase.magnetic 0).2.2.1 2).1.event_type
          = "Normal" ∨
     (detect_tamper (defaultWith [] [] [])
        (generate_reading 0 0 0 false TamperCase.magnetic 0).1
        (generate_reading 0 0 0 false TamperCase.magnetic 0).2.1
        (generate_reading 0 0 0 false TamperCase.magnetic 0).2.2.1 2).1.event_type
          = "Power Mismatch") :=
  C2_normal_stream_classification 0 0 0 0 TamperCase.magnetic [] [] [] 2
    (by decide) (by decide) (by decide) (by decide) (by decide) (by decide)

/-- Counterexample to C2 as stated: a tamper-probability-0 stream need not
classify as "Normal".  Six readings at the top of the noise band
(voltage 5.2, current 0.7, power 3.64) followed by one at the bottom
(voltage 4.8, current 0.1, power 0.48) — every value produced by the
generator with in-range draws and powers derived exactly as the reader
derives them — make the trend rule fire: the seventh reading is classified
"Power Mismatch", not "Normal". -/
theorem C2_counterexample :
    generate_reading 0.2 0.3 0 false TamperCase.magnetic 0
      = (5.2, 0.7, 15, "Normal") ∧
    generate_reading (-0.2) (-0.3) 0 false TamperCase.magnetic 0
      = (4.8, 0.1, 15, "Normal") ∧
    roundTo 3 ((5.2:ℚ) * 0.7) = 3.64 ∧
    roundTo 3 ((4.8:ℚ) * 0.1) = 0.48 ∧
    (detect_tamper
        (runDetector (List.replicate 6 ⟨5.2, 0.7, 15, 3.64⟩))
        4.8 0.1 15 0.48).1.event_type = "Power Mismatch" := by
  decide


/-- C3 (amended).  A reading produced by the stream generator with
`tamperProbability = 1` is always classified non-"Normal" by a
default-threshold classifier, *except* at the scenario boundary values: in
the magnetic scenario the reading is "Magnetic Tamper" provided the rounded
field exceeds 60 (at exactly 60.0 the strict comparison fails — see the
counterexample), in the overload scenario it is "Overload Detected" provided
the rounded current exceeds 2 (at exactly 2.0 it fails), while the bypass,
voltage and reverse scenarios are non-"Normal" on their entire ranges. -/
theorem C3_tampered_stream_classification :
    (∀ (dv dc dm sv : ℚ) (vh ch ph : List ℚ) (p : ℚ),
      60 ≤ sv → sv ≤ 100 → roundTo 2 sv ≠ 60 →
      (detect_tamper (defaultWith vh ch ph)
        (generate_reading dv dc dm true TamperCase.magnetic sv).1
        (generate_reading dv dc dm true TamperCase.magnetic sv).2.1
        (generate_reading dv dc dm true TamperCase.magnetic sv).2.2.1 p).1.event_type
          = "Magnetic Tamper") ∧
    (∀ (dv dc dm sv : ℚ) (vh ch ph : List ℚ) (p : ℚ),
      -0.2 ≤ dv → dv ≤ 0.2 → -5 ≤ dm → dm ≤ 5 → 0 ≤ sv → sv ≤ 0.02 →
      (detect_tamper (defaultWith vh ch ph)
        (generate_reading dv dc dm true TamperCase.bypass sv).1
        (generate_reading dv dc dm true TamperCase.bypass sv).2.1
        (generate_reading dv dc dm true TamperCase.bypass sv).2.2.1 p).1.event_type
          = "Bypass Detected") ∧
    (∀ (dv dc dm sv : ℚ) (vh ch ph : List ℚ) (p : ℚ),
      -5 ≤ dm → dm ≤ 5 → 2 ≤ sv → sv ≤ 5 → roundTo 2 sv ≠ 2 →
      (detect_tamper (defaultWith vh ch ph)
        (generate_reading dv dc dm true TamperCase.overload sv).1
        (generate_reading dv dc dm true TamperCase.overload sv).2.1
        (generate_reading dv dc dm true TamperCase.overload sv).2.2.1 p).1.event_type
          = "Overload Detected") ∧
    (∀ (dv dc dm sv : ℚ) (vh ch ph : List ℚ) (p : ℚ),
      -0.3 ≤ dc → dc ≤ 0.3 → -5 ≤ dm → dm ≤ 5 → 1.8 ≤ sv → sv ≤ 2.6 →
      (detect_tamper (defaultWith vh ch ph)
        (generate_reading dv dc dm true TamperCase.voltage sv).1
        (generate_reading dv dc dm true TamperCase.voltage sv).2.1
        (generate_reading dv dc dm true TamperCase.voltage sv).2.2.1 p).1.event_type
          = "Voltage Tamper") ∧
    (∀ (dv dc dm sv : ℚ) (vh ch ph : List ℚ) (p : ℚ),
      -5 ≤ dm → dm ≤ 5 → 0.2 ≤ sv → sv ≤ 1.0 →
      (detect_tamper (defaultWith vh ch ph)
        (generate_reading dv dc dm true TamperCase.reverse sv).1
        (generate_reading dv dc dm true TamperCase.reverse sv).2.1
        (generate_reading dv dc dm true TamperCase.reverse sv).2.2.1 p).1.event_type
          = "Reverse Flow") := by
  refine ⟨?_, ?_, ?_, ?_, ?_⟩
  · -- magnetic
    intro dv dc dm sv vh ch ph p h1 h2 h3
    have hg : generate_reading dv dc dm true TamperCase.magnetic sv =
        (roundTo 2 (5.0 + dv), roundTo 2 (0.4 + dc), roundTo 2 sv,
         if 5.0 + dv < 2.7 then "Voltage Tamper" else "Magnetic Tamper") := rfl
    have hm : (60:ℚ) ≤ roundTo 2 sv := by
      have e : ((6000:ℤ):ℚ)/100 = (60:ℚ) := by norm_num
      have h := @roundTo2_lb 6000 sv (by rw [e]; linarith)
      rw [e] at h
      exact h
    have hm' : roundTo 2 sv > 60 := lt_of_le_of_ne hm (Ne.symm h3)
    rw [hg]
    show (rule_chain (defaultWith vh ch ph) (roundTo 2 (5.0 + dv))
        (roundTo 2 (0.4 + dc)) (roundTo 2 sv) p).event_type = "Magnetic Tamper"
    simp only [rule_chain, defaultWith_mag]
    rw [if_pos hm']
  · -- bypass
    intro dv dc dm sv vh ch ph p hdv1 hdv2 hdm1 hdm2 h1 h2
    have hg : generate_reading dv dc dm true TamperCase.bypass sv =
        (roundTo 2 (5.0 + dv), roundTo 2 sv, roundTo 2 (15.0 + dm),
         if 5.0 + dv < 2.7 then "Voltage Tamper" else "Bypass Tamper") := rfl
    have hv1 : (4.8:ℚ) ≤ roundTo 2 (5.0 + dv) := by
      have e : ((480:ℤ):ℚ)/100 = (4.8:ℚ) := by norm_num
      have h := @roundTo2_lb 480 (5.0 + dv) (by rw [e]; linarith)
      rw [e] at h
      exact h
    have hm2 : roundTo 2 (15.0 + dm) ≤ (20:ℚ) := by
      have e : ((2000:ℤ):ℚ)/100 = (20:ℚ) := by norm_num
      have h := @roundTo2_ub 2000 (15.0 + dm) (by rw [e]; linarith)
      rw [e] at h
      exact h
    have hc1 : (0:ℚ) ≤ roundTo 2 sv := by
      have e : ((0:ℤ):ℚ)/100 = (0:ℚ) := by norm_num
      have h := @roundTo2_lb 0 sv (by rw [e]; linarith)
      rw [e] at h
      exact h
    have hc2 : roundTo 2 sv ≤ (0.02:ℚ) := by
      have e : ((2:ℤ):ℚ)/100 = (0.02:ℚ) := by norm_num
      have h := @roundTo2_ub 2 sv (by rw [e]; linarith)
      rw [e] at h
      exact h
    rw [hg]
    show (rule_chain (defaultWith vh ch ph) (roundTo 2 (5.0 + dv))
        (roundTo 2 sv) (roundTo 2 (15.0 + dm)) p).event_type = "Bypass Detected"
    simp only [rule_chain, defaultWith_mag, defaultWith_rev, defaultWith_cmin]
    rw [if_neg (by linarith), if_neg (by linarith),
      if_pos ⟨by linarith, by linarith⟩]
  · -- overload
    intro dv dc dm sv vh ch ph p hdm1 hdm2 h1 h2 h3
    have hg : generate_reading dv dc dm true TamperCase.overload sv =
        (roundTo 2 (5.0 + dv), roundTo 2 sv, roundTo 2 (15.0 + dm),
         if 5.0 + dv < 2.7 then "Voltage Tamper" else "Overload Tamper") := rfl
    have hm2 : roundTo 2 (15.0 + dm) ≤ (20:ℚ) := by
      have e : ((2000:ℤ):ℚ)/100 = (20:ℚ) := by norm_num
      have h := @roundTo2_ub 2000 (15.0 + dm) (by rw [e]; linarith)
      rw [e] at h
      exact h
    have hc1 : (2:ℚ) ≤ roundTo 2 sv := by
      have e : ((200:ℤ):ℚ)/100 = (2:ℚ) := by norm_num
      have h := @roundTo2_lb 200 sv (by rw [e]; linarith)
      rw [e] at h
      exact h
    have hc' : roundTo 2 sv > 2.0 := by
      have h20 : (2.0:ℚ) = 2 := by norm_num
      rw [h20]
      exact lt_of_le_of_ne hc1 (Ne.symm h3)
    rw [hg]
    show (rule_chain (defaultWith vh ch ph) (roundTo 2 (5.0 + dv))
        (roundTo 2 sv) (roundTo 2 (15.0 + dm)) p).event_type = "Overload Detected"
    simp only [rule_chain, defaultWith_mag, defaultWith_rev, defaultWith_cmin,
      defaultWith_ov]
    rw [if_neg (by linarith), if_neg (by linarith),
      if_neg (fun h => absurd h.2 (by linarith)), if_pos hc']
  · -- voltage
    intro dv dc dm sv vh ch ph p hdc1 hdc2 hdm1 hdm2 h1 h2
    have hg : generate_reading dv dc dm true TamperCase.voltage sv =
        (roundTo 2 sv, roundTo 2 (0.4 + dc), roundTo 2 (15.0 + dm),
         "Voltage Tamper") := by
      show (roundTo 2 sv, roundTo 2 (0.4 + dc), roundTo 2 (15.0 + dm),
        if sv < 2.7 then "Voltage Tamper" else "Voltage Tamper") = _
      rw [if_pos (by linarith)]
    have hm2 : roundTo 2 (15.0 + dm) ≤ (20:ℚ) := by
      have e : ((2000:ℤ):ℚ)/100 = (20:ℚ) := by norm_num
      have h := @roundTo2_ub 2000 (15.0 + dm) (by rw [e]; linarith)
      rw [e] at h
      exact h
    have hc1 : (0.1:ℚ) ≤ roundTo 2 (0.4 + dc) := by
      have e : ((10:ℤ):ℚ)/100 = (0.1:ℚ) := by norm_num
      have h := @roundTo2_lb 10 (0.4 + dc) (by rw [e]; linarith)
      rw [e] at h
      exact h
    have hc2 : roundTo 2 (0.4 + dc) ≤ (0.7:ℚ) := by
      have e : ((70:ℤ):ℚ)/100 = (0.7:ℚ) := by norm_num
      have h := @roundTo2_ub 70 (0.4 + dc) (by rw [e]; linarith)
      rw [e] at h
      exact h
    have hv2 : roundTo 2 sv ≤ (2.6:ℚ) := by
      have e : ((260:ℤ):ℚ)/100 = (2.6:ℚ) := by norm_num
      have h := @roundTo2_ub 260 sv (by rw [e]; linarith)
      rw [e] at h
      exact h
    rw [hg]
    show (rule_chain (defaultWith vh ch ph) (roundTo 2 sv)
        (roundTo 2 (0.4 + dc)) (roundTo 2 (15.0 + dm)) p).event_type
          = "Voltage Tamper"
    simp only [rule_chain, defaultWith_mag, defaultWith_rev, defaultWith_cmin,
      defaultWith_ov, defaultWith_vt]
    rw [if_neg (by linarith), if_neg (by linarith),
      if_neg (fun h => absurd h.1 (by linarith)), if_neg (by linarith),
      if_pos (by linarith)]
  · -- reverse
    intro dv dc dm sv vh ch ph p hdm1 hdm2 h1 h2
    have hg : generate_reading dv dc dm true TamperCase.reverse sv =
        (roundTo 2 (5.0 + dv), roundTo 2 (-1.0 * sv), roundTo 2 (15.0 + dm),
         if 5.0 + dv < 2.7 then "Voltage Tamper" else "Reverse Flow Tamper") := rfl
    have hm2 : roundTo 2 (15.0 + dm) ≤ (20:ℚ) := by
      have e : ((2000:ℤ):ℚ)/100 = (20:ℚ) := by norm_num
      have h := @roundTo2_ub 2000 (15.0 + dm) (by rw [e]; linarith)
      rw [e] at h
      exact h
    have hc2 : roundTo 2 (-1.0 * sv) ≤ (-0.2:ℚ) := by
      have e : (((-20):ℤ):ℚ)/100 = (-0.2:ℚ) := by norm_num
      have h := @roundTo2_ub (-20) (-1.0 * sv) (by rw [e]; linarith)
      rw [e] at h
      exact h
    rw [hg]
    show (rule_chain (defaultWith vh ch ph) (roundTo 2 (5.0 + dv))
        (roundTo 2 (-1.0 * sv)) (roundTo 2 (15.0 + dm)) p).event_type
          = "Reverse Flow"
    simp only [rule_chain, defaultWith_mag, defaultWith_rev]
    rw [if_neg (by linarith), if_pos (by linarith)]


/-- Witness for C3: one concrete in-range instantiation per scenario. -/
theorem C3_tampered_stream_classification_witness :
    (detect_tamper (defaultWith [] [] [])
      (generate_reading 0 0 0 true TamperCase.magnetic 70).1
      (generate_reading 0 0 0 true TamperCase.magnetic 70).2.1
      (generate_reading 0 0 0 true TamperCase.magnetic 70).2.2.1 2).1.event_type
        = "Magnetic Tamper" ∧
    (detect_tamper (defaultWith [] [] [])
      (generate_reading 0 0 0 true TamperCase.bypass 0.01).1
      (generate_reading 0 0 0 true TamperCase.bypass 0.01).2.1
      (generate_reading 0 0 0 true TamperCase.bypass 0.01).2.2.1 2).1.event_type
        = "Bypass Detected" ∧
    (detect_tamper (defaultWith [] [] [])
      (generate_reading 0 0 0 true TamperCase.overload 3).1
      (generate_reading 0 0 0 true TamperCase.overload 3).2.1
      (generate_reading 0 0 0 true TamperCase.overload 3).2.2.1 2).1.event_type
        = "Overload Detected" ∧
    (detect_tamper (defaultWith [] [] [])
      (generate_reading 0 0 0 true TamperCase.voltage 2).1
      (generate_reading 0 0 0 true TamperCase.voltage 2).2.1
      (generate_reading 0 0 0 true TamperCase.voltage 2).2.2.1 2).1.event_type
        = "Voltage Tamper" ∧
    (detect_tamper (defaultWith [] [] [])
      (generate_reading 0 0 0 true TamperCase.reverse 0.5).1
      (generate_reading 0 0 0 true TamperCase.reverse 0.5).2.1
      (generate_reading 0 0 0 true TamperCase.reverse 0.5).2.2.1 2).1.event_type
        = "Reverse Flow" :=
  ⟨C3_tampered_stream_classification.1 0 0 0 70 [] [] [] 2
      (by decide) (by decide) (by decide),
   C3_tampered_stream_classification.2.1 0 0 0 0.01 [] [] [] 2
      (by decide) (by decide) (by decide) (by decide) (by decide) (by decide),
   C3_tampered_stream_classification.2.2.1 0 0 0 3 [] [] [] 2
      (by decide) (by decide) (by decide) (by decide) (by decide),
   C3_tampered_stream_classification.2.2.2.1 0 0 0 2 [] [] [] 2
      (by decide) (by decide) (by decide) (by decide) (by decide) (by decide),
   C3_tampered_stream_classification.2.2.2.2 0 0 0 0.5 [] [] [] 2
      (by decide) (by decide) (by decide) (by decide)⟩

/-- Counterexample to C3 as stated: at the scenario boundary values the
tampered stream *is* classified "Normal".  A magnetic-scenario reading with
field exactly 60.0 and an overload-scenario reading with current exactly 2.0
(both producible by the generator, which draws from the closed intervals
`[60, 100]` and `[2, 5]`) fail the strict comparisons of rules 1 and 4 and
fall through to "Normal" on a fresh default classifier. -/
theorem C3_counterexample :
    generate_reading 0 0 0 true TamperCase.magnetic 60
      = (5, 0.4, 60, "Magnetic Tamper") ∧
    (detect_tamper TamperDetector.init 5 0.4 60
      (roundTo 3 ((5:ℚ) * 0.4))).1.event_type = "Normal" ∧
    generate_reading 0 0 0 true TamperCase.overload 2
      = (5, 2, 15, "Overload Tamper") ∧
    (detect_tamper TamperDetector.init 5 2 15
      (roundTo 3 ((5:ℚ) * 2))).1.event_type = "Normal" := by
  decide


/-! ## Claims C4, C5, C10: state discipline of the rolling histories -/

/-- C4.  The classification returned by `detect_tamper` is a function of the
reading and the state as it was *before* the call (`rule_chain`, whose trend
statistic averages `lastN s.power_history 10`), and the reading is appended
to the three histories only afterwards (`push_histories`).  The ordering is
observable: with exactly five accumulated power samples, a reading with
power 0 is classified "Normal" because the pre-call window is too short for
the trend rule, although the same reading evaluated against the post-call
window — which contains the reading's own power — would fire it. -/
theorem C4_classification_precedes_history_update :
    (∀ (s : TamperDetector) (v c m p : ℚ),
      detect_tamper s v c m p
        = (rule_chain s v c m p, push_histories s v c p)) ∧
    (detect_tamper
        (defaultWith [5,5,5,5,5] [0.4,0.4,0.4,0.4,0.4] [2,2,2,2,2])
        5 0.4 10 0).1.event_type = "Normal" ∧
    (rule_chain
        (detect_tamper
          (defaultWith [5,5,5,5,5] [0.4,0.4,0.4,0.4,0.4] [2,2,2,2,2])
          5 0.4 10 0).2
        5 0.4 10 0).event_type = "Power Mismatch" :=
  ⟨fun _ _ _ _ _ => rfl, by decide, by decide⟩

theorem tail_append_singleton {α : Type} (l : List α) (x : α) (h : l ≠ []) :
    (l ++ [x]).tail = l.tail ++ [x] := by
  cases l with
  | nil => exact absurd rfl h
  | cons y ys => simp

theorem push_histories_at_capacity (s : TamperDetector) (v c p : ℚ)
    (h1 : s.voltage_history.length = 50)
    (h2 : s.current_history.length = 50)
    (h3 : s.power_history.length = 50) :
    (push_histories s v c p).voltage_history = s.voltage_history.tail ++ [v] ∧
    (push_histories s v c p).current_history = s.current_history.tail ++ [c] ∧
    (push_histories s v c p).power_history = s.power_history.tail ++ [p] := by
  simp only [push_histories]
  rw [if_pos (by simp [h1])]
  refine ⟨?_, ?_, ?_⟩
  · exact tail_append_singleton _ _ (by intro h; rw [h] at h1; simp at h1)
  · exact tail_append_singleton _ _ (by intro h; rw [h] at h2; simp at h2)
  · exact tail_append_singleton _ _ (by intro h; rw [h] at h3; simp at h3)

/-- C5.  Starting from a fresh classifier, none of the three history lists
ever exceeds 50 entries (each has exactly `min n 50` entries after `n`
calls), and once 50 entries are reached every further call evicts exactly
the oldest entry of each list — the next classification sees the previous
window with its head removed and the new reading appended (FIFO). -/
theorem C5_capacity_and_fifo_eviction :
    ∀ (rs : List Reading),
      ((runDetector rs).voltage_history.length = min rs.length 50 ∧
       (runDetector rs).current_history.length = min rs.length 50 ∧
       (runDetector rs).power_history.length = min rs.length 50) ∧
      ∀ (r : Reading), 50 ≤ rs.length →
        (stepD (runDetector rs) r).voltage_history
            = (runDetector rs).voltage_history.tail ++ [r.voltage] ∧
        (stepD (runDetector rs) r).current_history
            = (runDetector rs).current_history.tail ++ [r.current] ∧
        (stepD (runDetector rs) r).power_history
            = (runDetector rs).power_history.tail ++ [r.power] := by
  intro rs
  obtain ⟨h1, h2, h3⟩ := runDetector_histories rs
  have l1 : (runDetector rs).voltage_history.length = min rs.length 50 := by
    rw [h1, lastN_length, List.length_map]; omega
  have l2 : (runDetector rs).current_history.length = min rs.length 50 := by
    rw [h2, lastN_length, List.length_map]; omega
  have l3 : (runDetector rs).power_history.length = min rs.length 50 := by
    rw [h3, lastN_length, List.length_map]; omega
  refine ⟨⟨l1, l2, l3⟩, ?_⟩
  intro r h50
  exact push_histories_at_capacity (runDetector rs) r.voltage r.current r.power
    (by omega) (by omega) (by omega)

/-- Witness for C5: after 50 readings the window is full, and the 51st call
evicts the oldest entry of each channel. -/
theorem C5_capacity_and_fifo_eviction_witness :
    (stepD (runDetector (List.replicate 50 (⟨5, 0.4, 15, 2⟩ : Reading)))
        ⟨4.9, 0.5, 14, 2.45⟩).voltage_history
      = (runDetector (List.replicate 50 (⟨5, 0.4, 15, 2⟩ : Reading))).voltage_history.tail
          ++ [4.9] ∧
    (stepD (runDetector (List.replicate 50 (⟨5, 0.4, 15, 2⟩ : Reading)))
        ⟨4.9, 0.5, 14, 2.45⟩).current_history
      = (runDetector (List.replicate 50 (⟨5, 0.4, 15, 2⟩ : Reading))).current_history.tail
          ++ [0.5] ∧
    (stepD (runDetector (List.replicate 50 (⟨5, 0.4, 15, 2⟩ : Reading)))
        ⟨4.9, 0.5, 14, 2.45⟩).power_history
      = (runDetector (List.replicate 50 (⟨5, 0.4, 15, 2⟩ : Reading))).power_history.tail
          ++ [2.45] :=
  (C5_capacity_and_fifo_eviction (List.replicate 50 ⟨5, 0.4, 15, 2⟩)).2
    ⟨4.9, 0.5, 14, 2.45⟩ (by simp)

/-- C10 (implicit).  After any sequence of `detect_tamper` calls from a fresh
classifier the three history lists have equal length, and each is the image
of the same suffix of readings (the most recent `min n 50`), so the `i`-th
entries of the three lists always come from the same reading. -/
theorem C10_history_channels_aligned :
    ∀ (rs : List Reading),
      (runDetector rs).voltage_history
          = lastN (rs.map Reading.voltage) 50 ∧
      (runDetector rs).current_history
          = lastN (rs.map Reading.current) 50 ∧
      (runDetector rs).power_history
          = lastN (rs.map Reading.power) 50 ∧
      (runDetector rs).voltage_history.length
          = (runDetector rs).current_history.length ∧
      (runDetector rs).current_history.length
          = (runDetector rs).power_history.length := by
  intro rs
  obtain ⟨h1, h2, h3⟩ := runDetector_histories rs
  refine ⟨h1, h2, h3, ?_, ?_⟩ <;>
    simp [h1, h2, h3, lastN_length, List.length_map]


/-! ## Claim C6: get_statistics -/

/-- C6 (amended).  `get_statistics` returns the no-data sentinel (`None`)
exactly when the (voltage) history window is empty; otherwise it returns the
mean over the current window contents for each of voltage, current and
power, and the minimum and maximum of voltage and of current — seven
statistics.  Contrary to the original claim, no minimum or maximum of power
is returned (see the counterexample). -/
theorem C6_get_statistics_contents :
    ∀ (s : TamperDetector),
      s.current_history.length = s.voltage_history.length →
      s.power_history.length = s.voltage_history.length →
      ((get_statistics s = none ↔ s.voltage_history = []) ∧
       ∀ st, get_statistics s = some st →
         st.avg_voltage = listSum s.voltage_history / s.voltage_history.length ∧
         st.avg_current = listSum s.current_history / s.current_history.length ∧
         st.avg_power = listSum s.power_history / s.power_history.length ∧
         st.min_voltage ∈ s.voltage_history ∧
         (∀ x ∈ s.voltage_history, st.min_voltage ≤ x) ∧
         st.max_voltage ∈ s.voltage_history ∧
         (∀ x ∈ s.voltage_history, x ≤ st.max_voltage) ∧
         st.min_current ∈ s.current_history ∧
         (∀ x ∈ s.current_history, st.min_current ≤ x) ∧
         st.max_current ∈ s.current_history ∧
         (∀ x ∈ s.current_history, x ≤ st.max_current)) := by
  intro s hc hp
  constructor
  · simp only [get_statistics]
    split_ifs with h
    · simp [h]
    · simp [h]
  · intro st hst
    have hne : s.voltage_history ≠ [] := by
      intro h
      rw [get_statistics, if_pos h] at hst
      exact Option.noConfusion hst
    have hcne : s.current_history ≠ [] := by
      intro h
      apply hne
      rw [h] at hc
      simp only [List.length_nil] at hc
      exact List.length_eq_zero.1 hc.symm
    have hst' : st =
        { avg_voltage := listSum s.voltage_history / s.voltage_history.length
          avg_current := listSum s.current_history / s.current_history.length
          avg_power := listSum s.power_history / s.power_history.length
          min_voltage := listMin s.voltage_history
          max_voltage := listMax s.voltage_history
          min_current := listMin s.current_history
          max_current := listMax s.current_history } := by
      rw [get_statistics, if_neg hne] at hst
      exact (Option.some_inj.1 hst).symm
    subst hst'
    exact ⟨rfl, rfl, rfl, listMin_mem hne, listMin_le hne, listMax_mem hne,
      le_listMax hne, listMin_mem hcne, listMin_le hcne, listMax_mem hcne,
      le_listMax hcne⟩

/-- Witness for C6: a classifier that has seen one reading. -/
theorem C6_get_statistics_contents_witness :
    (get_statistics (runDetector [⟨5, 0.4, 15, 2⟩]) = none ↔
      (runDetector [(⟨5, 0.4, 15, 2⟩ : Reading)]).voltage_history = []) ∧
    (⟨5, 0.4, 2, 5, 5, 0.4, 0.4⟩ : Statistics).min_voltage
      ∈ (runDetector [(⟨5, 0.4, 15, 2⟩ : Reading)]).voltage_history :=
  ⟨(C6_get_statistics_contents (runDetector [⟨5, 0.4, 15, 2⟩])
      (by decide) (by decide)).1,
   ((C6_get_statistics_contents (runDetector [⟨5, 0.4, 15, 2⟩])
      (by decide) (by decide)).2 ⟨5, 0.4, 2, 5, 5, 0.4, 0.4⟩
      (by decide)).2.2.2.1⟩

/-- Counterexample to C6 as stated: `get_statistics` does not return the
minimum and maximum of power.  Two reachable classifier states whose power
windows have different minima (0 vs 1) and maxima (2 vs 1) yield *identical*
`get_statistics` dictionaries, so no function of the returned statistics can
be the power minimum or maximum. -/
theorem C6_counterexample :
    get_statistics (runDetector [⟨5, 1, 10, 0⟩, ⟨5, 1, 10, 2⟩])
      = get_statistics (runDetector [⟨5, 1, 10, 1⟩, ⟨5, 1, 10, 1⟩]) ∧
    listMin (runDetector [(⟨5, 1, 10, 0⟩ : Reading), ⟨5, 1, 10, 2⟩]).power_history
      = 0 ∧
    listMin (runDetector [(⟨5, 1, 10, 1⟩ : Reading), ⟨5, 1, 10, 1⟩]).power_history
      = 1 ∧
    listMax (runDetector [(⟨5, 1, 10, 0⟩ : Reading), ⟨5, 1, 10, 2⟩]).power_history
      = 2 ∧
    listMax (runDetector [(⟨5, 1, 10, 1⟩ : Reading), ⟨5, 1, 10, 1⟩]).power_history
      = 1 := by
  decide


/-! ## Claim C7: threshold configuration -/

/-- A detector state in which *every* threshold attribute has been moved far
away from its default — the most a caller could achieve by mutating the
instance attributes, since the constructor takes no parameters. -/
def offDefaults : TamperDetector where
  voltage_normal_min := -1000000
  voltage_normal_max := 1000000
  voltage_tamper_threshold := -1000000
  current_min := 1000000
  overload_threshold := 1000000
  reverse_threshold := -1000000
  magnetic_normal_max := 1000000
  magnetic_tamper_threshold := 1000000
  voltage_history := []
  current_history := []
  power_history := []

/-- C7 (amended).  `TamperDetector.__init__` takes no threshold parameters:
a constructed classifier always starts with the stated defaults
(magnetic 60, reverse −0.1, current-min 0.05, overload 2, voltage-tamper
2.7, normal band 4.7–5.2) as instance attributes, and the bypass voltage
floor 4.5 is a hard-coded literal inside rule 3 rather than a configurable
attribute: even in a state with every threshold attribute changed, the
bypass rule still switches exactly at voltage 4.5. -/
theorem C7_default_thresholds_not_constructor_configurable :
    TamperDetector.init.magnetic_tamper_threshold = 60 ∧
    TamperDetector.init.reverse_threshold = -0.1 ∧
    TamperDetector.init.current_min = 0.05 ∧
    TamperDetector.init.overload_threshold = 2 ∧
    TamperDetector.init.voltage_tamper_threshold = 2.7 ∧
    TamperDetector.init.voltage_normal_min = 4.7 ∧
    TamperDetector.init.voltage_normal_max = 5.2 ∧
    TamperDetector.init.voltage_history = [] ∧
    TamperDetector.init.current_history = [] ∧
    TamperDetector.init.power_history = [] ∧
    (detect_tamper offDefaults 4.5 0.01 10 1).1.event_type = "Bypass Detected" ∧
    (detect_tamper offDefaults 4.49 0.01 10 1).1.event_type = "Normal" := by
  decide

/-- Counterexample to C7 as stated: thresholds cannot be overridden at
construction time.  The embedded constructor (`TamperDetector.init`, the
faithful image of the parameterless `__init__`) is the only way to build a
classifier, and it pins the magnetic threshold to 60 — no construction
yields, say, 100.  Moreover the "bypass voltage floor" named by the claim is
not a configurable quantity at all: a state with every threshold attribute
changed (`offDefaults`) still classifies by the literal 4.5. -/
theorem C7_counterexample :
    TamperDetector.init.magnetic_tamper_threshold ≠ 100 ∧
    (detect_tamper offDefaults 4.5 0.01 10 1).1.event_type = "Bypass Detected" ∧
    (detect_tamper offDefaults 4.49 0.01 10 1).1.event_type ≠ "Bypass Detected" := by
  decide


/-! ## Claim C8: serial-line parsing -/

/-- C8 (amended).  For every input line, parsing returns `None` (and raises
nothing) whenever the line has fewer than 3 comma-separated fields or any of
the first three fields fails numeric parsing; a well-formed 3-field line is
accepted with tamper hint "Normal", and a line of 4 or more fields with the
whitespace-stripped 4th field as hint — except that, contrary to the
original claim, a resulting "Normal" hint is overridden to "Voltage Tamper"
when the parsed voltage is below 2.7 (see the counterexample). -/
theorem C8_line_parsing :
    ∀ (raw : String),
      ((sensorParts raw).length < 3 → read_sensor_line raw = none) ∧
      ((pyFloat ((sensorParts raw).getD 0 "") = none ∨
        pyFloat ((sensorParts raw).getD 1 "") = none ∨
        pyFloat ((sensorParts raw).getD 2 "") = none) →
        read_sensor_line raw = none) ∧
      (∀ v c m : ℚ, (sensorParts raw).length = 3 →
        pyFloat ((sensorParts raw).getD 0 "") = some v →
        pyFloat ((sensorParts raw).getD 1 "") = some c →
        pyFloat ((sensorParts raw).getD 2 "") = some m →
        read_sensor_line raw = some
          ⟨v, c, m, roundTo 3 (v * c),
           if v < 2.7 then "Voltage Tamper" else "Normal"⟩) ∧
      (∀ v c m : ℚ, 4 ≤ (sensorParts raw).length →
        pyFloat ((sensorParts raw).getD 0 "") = some v →
        pyFloat ((sensorParts raw).getD 1 "") = some c →
        pyFloat ((sensorParts raw).getD 2 "") = some m →
        read_sensor_line raw = some
          ⟨v, c, m, roundTo 3 (v * c),
           if v < 2.7 ∧ strip ((sensorParts raw).getD 3 "") = "Normal"
           then "Voltage Tamper"
           else strip ((sensorParts raw).getD 3 "")⟩) := by
  intro raw
  by_cases he : strip raw = ""
  · have hps : sensorParts raw = [""] := by
      simp [sensorParts, he, splitComma]
    have hnone : read_sensor_line raw = none := by
      simp [read_sensor_line, he]
    refine ⟨fun _ => hnone, fun _ => hnone, ?_, ?_⟩
    · intro v c m hlen
      rw [hps] at hlen
      simp at hlen
    · intro v c m hlen
      rw [hps] at hlen
      simp at hlen
  · rcases hps : sensorParts raw with _ | ⟨p0, _ | ⟨p1, _ | ⟨p2, _ | ⟨p3, rest⟩⟩⟩⟩
    · have hnone : read_sensor_line raw = none := by
        simp [read_sensor_line, he, hps]
      exact ⟨fun _ => hnone, fun _ => hnone,
        fun v c m hlen => by simp at hlen,
        fun v c m hlen => by simp at hlen⟩
    · have hnone : read_sensor_line raw = none := by
        simp [read_sensor_line, he, hps]
      exact ⟨fun _ => hnone, fun _ => hnone,
        fun v c m hlen => by simp at hlen,
        fun v c m hlen => by simp at hlen⟩
    · have hnone : read_sensor_line raw = none := by
        simp [read_sensor_line, he, hps]
      exact ⟨fun _ => hnone, fun _ => hnone,
        fun v c m hlen => by simp at hlen,
        fun v c m hlen => by simp at hlen⟩
    · -- exactly three fields
      refine ⟨fun hlen => by simp at hlen, ?_, ?_, ?_⟩
      · intro hdisj
        simp at hdisj
        simp only [read_sensor_line, if_neg he, hps]
        cases hv0 : pyFloat p0 <;> cases hv1 : pyFloat p1 <;>
          cases hv2 : pyFloat p2 <;> simp_all
      · intro v c m _ hv hc hm
        simp at hv hc hm
        simp [read_sensor_line, he, hps, hv, hc, hm]
      · intro v c m hlen
        simp at hlen
    · -- four or more fields
      refine ⟨fun hlen => by simp at hlen; omega, ?_, ?_, ?_⟩
      · intro hdisj
        simp at hdisj
        simp only [read_sensor_line, if_neg he, hps]
        cases hv0 : pyFloat p0 <;> cases hv1 : pyFloat p1 <;>
          cases hv2 : pyFloat p2 <;> simp_all
      · intro v c m hlen
        simp at hlen
      · intro v c m _ hv hc hm
        simp at hv hc hm
        simp [read_sensor_line, he, hps, hv, hc, hm]


/-- Witness for C8: a well-formed 3-field line is accepted; a line with a
malformed numeric field is discarded. -/
theorem C8_line_parsing_witness :
    read_sensor_line "4.98,0.42,13.1" = some
      ⟨4.98, 0.42, 13.1, roundTo 3 ((4.98:ℚ) * 0.42),
       if (4.98:ℚ) < 2.7 then "Voltage Tamper" else "Normal"⟩ ∧
    read_sensor_line "5.0,abc,10" = none :=
  ⟨(C8_line_parsing "4.98,0.42,13.1").2.2.1 4.98 0.42 13.1
      (by decide) (by decide) (by decide) (by decide),
   (C8_line_parsing "5.0,abc,10").2.1 (by decide)⟩

/-- Counterexample to C8 as stated: an accepted line's hint does not always
default to "Normal" (3 fields) or to the trimmed 4th field (4 fields) — when
the parsed voltage is below 2.7 a "Normal" hint is overridden to
"Voltage Tamper" before the record is returned. -/
theorem C8_counterexample :
    read_sensor_line "2.0,0.3,10" = some ⟨2, 0.3, 10, 0.6, "Voltage Tamper"⟩ ∧
    read_sensor_line "2.0,0.3,10,Normal"
      = some ⟨2, 0.3, 10, 0.6, "Voltage Tamper"⟩ := by
  decide


/-! ## Claim C9: output rounding of the generators -/

/-- C9 (amended).  The stream generator (`simulator.generate_reading`) emits
voltage, current and magnetic field each rounded to 2 decimal places — and no
power field at all (its output tuple has no such component).  The mock
generator (`SerialReader._generate_mock_data`) emits the three channels
rounded to 2 decimal places together with a power field that is the
*unrounded* voltage × current rounded to **3** decimal places (not 2, and
not the product of the emitted rounded values — see the counterexample):
every mock record's channels are fixed points of 2-decimal rounding, its
power is a fixed point of 3-decimal rounding, and there exist pre-rounding
values `v0, c0` with `voltage = round2 v0`, `current = round2 c0` and
`power = round3 (v0 * c0)`. -/
theorem C9_generator_rounding :
    ∀ (dv dc dm sv : ℚ) (b : Bool) (case : TamperCase),
      (roundTo 2 (generate_reading dv dc dm b case sv).1
          = (generate_reading dv dc dm b case sv).1 ∧
       roundTo 2 (generate_reading dv dc dm b case sv).2.1
          = (generate_reading dv dc dm b case sv).2.1 ∧
       roundTo 2 (generate_reading dv dc dm b case sv).2.2.1
          = (generate_reading dv dc dm b case sv).2.2.1) ∧
      (roundTo 2 (generate_mock_data dv dc dm b case sv).voltage
          = (generate_mock_data dv dc dm b case sv).voltage ∧
       roundTo 2 (generate_mock_data dv dc dm b case sv).current
          = (generate_mock_data dv dc dm b case sv).current ∧
       roundTo 2 (generate_mock_data dv dc dm b case sv).magnetic_field
          = (generate_mock_data dv dc dm b case sv).magnetic_field ∧
       roundTo 3 (generate_mock_data dv dc dm b case sv).power
          = (generate_mock_data dv dc dm b case sv).power) ∧
      (∃ v0 c0 : ℚ,
        (generate_mock_data dv dc dm b case sv).voltage = roundTo 2 v0 ∧
        (generate_mock_data dv dc dm b case sv).current = roundTo 2 c0 ∧
        (generate_mock_data dv dc dm b case sv).power = roundTo 3 (v0 * c0)) := by
  intro dv dc dm sv b case
  cases b with
  | false =>
    exact ⟨⟨roundTo_idem 2 _, roundTo_idem 2 _, roundTo_idem 2 _⟩,
      ⟨roundTo_idem 2 _, roundTo_idem 2 _, roundTo_idem 2 _, roundTo_idem 3 _⟩,
      5.0 + dv, 0.4 + dc, rfl, rfl, rfl⟩
  | true =>
    cases case with
    | magnetic =>
      exact ⟨⟨roundTo_idem 2 _, roundTo_idem 2 _, roundTo_idem 2 _⟩,
        ⟨roundTo_idem 2 _, roundTo_idem 2 _, roundTo_idem 2 _, roundTo_idem 3 _⟩,
        5.0 + dv, 0.4 + dc, rfl, rfl, rfl⟩
    | bypass =>
      exact ⟨⟨roundTo_idem 2 _, roundTo_idem 2 _, roundTo_idem 2 _⟩,
        ⟨roundTo_idem 2 _, roundTo_idem 2 _, roundTo_idem 2 _, roundTo_idem 3 _⟩,
        5.0 + dv, sv, rfl, rfl, rfl⟩
    | overload =>
      exact ⟨⟨roundTo_idem 2 _, roundTo_idem 2 _, roundTo_idem 2 _⟩,
        ⟨roundTo_idem 2 _, roundTo_idem 2 _, roundTo_idem 2 _, roundTo_idem 3 _⟩,
        5.0 + dv, sv, rfl, rfl, rfl⟩
    | voltage =>
      exact ⟨⟨roundTo_idem 2 _, roundTo_idem 2 _, roundTo_idem 2 _⟩,
        ⟨roundTo_idem 2 _, roundTo_idem 2 _, roundTo_idem 2 _, roundTo_idem 3 _⟩,
        sv, 0.4 + dc, rfl, rfl, rfl⟩
    | reverse =>
      exact ⟨⟨roundTo_idem 2 _, roundTo_idem 2 _, roundTo_idem 2 _⟩,
        ⟨roundTo_idem 2 _, roundTo_idem 2 _, roundTo_idem 2 _, roundTo_idem 3 _⟩,
        5.0 + dv, -1.0 * sv, rfl, rfl, rfl⟩

/-- Counterexample to C9 as stated: the mock generator's power field is
*not* voltage × current rounded to 2 decimal places, and is not itself a
2-decimal value.  With raw draws voltage 5.0 and current 0.123 (in range),
the emitted record is voltage 5, current 0.12, power 0.615: a 3-decimal
value that differs both from `round2(5 × 0.12) = 0.6` and from
`round2(5 × 0.123) = 0.62`. -/
theorem C9_counterexample :
    (generate_mock_data 0 (-0.277) 0 false TamperCase.magnetic 0).power
      = 0.615 ∧
    roundTo 2 (0.615:ℚ) ≠ (0.615:ℚ) ∧
    (generate_mock_data 0 (-0.277) 0 false TamperCase.magnetic 0).voltage = 5 ∧
    (generate_mock_data 0 (-0.277) 0 false TamperCase.magnetic 0).current
      = 0.12 ∧
    roundTo 2 ((5:ℚ) * 0.12) ≠ (0.615:ℚ) ∧
    roundTo 2 ((5:ℚ) * 0.123) ≠ (0.615:ℚ) := by
  decide

end EMB
